import Mathlib

/-!
Verification of the HybridAgent diff-resolution engine.

Python text values are embedded as lists of characters (`Line := List Char`),
and multi-line text as a list of lines (`Text := List Line`), so that every
string operation of the source becomes a structurally recursive Lean function.

The repository ships `src/hybrid_agent/cli.py`, the backend clients and the
tests, but the module `hybrid_agent/loop.py` (the resolution orchestrator with
`solve_request`, `_strip_code_fences`, `_looks_like_unified_diff`) is not part
of the source tree; only its tests and callers are.  Definitions for that
module are therefore modelled from the specification (sections 4.1, 4.3 and
4.5) and are marked `Modelled from the spec:` in their doc comments.  All other
definitions are translated directly from the Python source.
-/

set_option maxRecDepth 4096

/-- A single line of text, embedded as a list of characters. -/
abbrev Line : Type := List Char

/-- A text, embedded as its list of lines. -/
abbrev Text : Type := List Line

/-- Python `s.startswith(p)` at the character-list level. -/
def pyStartswith (s p : Line) : Bool := p.isPrefixOf s

/-- Python `s.endswith(p)` at the character-list level. -/
def pyEndswith (s p : Line) : Bool := p.isSuffixOf s

/-- A markdown code-fence line: one that begins with three backticks,
optionally followed by a language tag such as `diff`. -/
def isFenceLine (l : Line) : Bool := pyStartswith l ('`' :: '`' :: '`' :: [])

/-- Whether a text currently carries a complete fence pair: at least two
lines, the first and the last of which are fence lines. -/
def fencedOnce : Text → Bool
  | [] => false
  | [_] => false
  | l₁ :: l₂ :: rest => isFenceLine l₁ && isFenceLine ((l₂ :: rest).getLastD [])

/-- Fuel-indexed worker removing complete fence pairs from the outside in. -/
def stripFencesAux : Nat → Text → Text
  | 0, ls => ls
  | n + 1, ls => if fencedOnce ls then stripFencesAux n (ls.tail.dropLast) else ls

/-- Modelled from the spec: `_strip_code_fences` of the absent module
`hybrid_agent/loop.py` (spec section 4.1) removes a leading/trailing
triple-backtick fence, with or without a language tag, from the start and the
end of the text, leaves inner content otherwise untouched, and is idempotent.
Fence pairs are removed until none remains, which the fuel `ls.length`
always suffices for since each removal deletes two lines. -/
def stripCodeFences (ls : Text) : Text := stripFencesAux ls.length ls

/-- Python string "--- " as a character list (unified-diff old-file marker). -/
def unifiedOldMarker (l : Line) : Bool :=
  pyStartswith l ('-' :: '-' :: '-' :: ' ' :: [])

/-- Python string "+++ " as a character list (unified-diff new-file marker). -/
def unifiedNewMarker (l : Line) : Bool :=
  pyStartswith l ('+' :: '+' :: '+' :: ' ' :: [])

/-- Python string "@@" as a character list (unified-diff hunk header). -/
def hunkMarker (l : Line) : Bool := pyStartswith l ('@' :: '@' :: [])

/-- Python string "*** " as a character list (context-diff star marker). -/
def contextStarMarker (l : Line) : Bool :=
  pyStartswith l ('*' :: '*' :: '*' :: ' ' :: [])

/-- A context-diff hunk separator line of the star kind, such as
`*** 1 ****`: starts with "*** " and ends with "****". -/
def contextStarRuler (l : Line) : Bool :=
  pyStartswith l ('*' :: '*' :: '*' :: ' ' :: []) &&
    pyEndswith l ('*' :: '*' :: '*' :: '*' :: [])

/-- A context-diff hunk separator line of the dash kind, such as
`--- 1 ----`: starts with "--- " and ends with "----". -/
def contextDashRuler (l : Line) : Bool :=
  pyStartswith l ('-' :: '-' :: '-' :: ' ' :: []) &&
    pyEndswith l ('-' :: '-' :: '-' :: '-' :: [])

/-- Modelled from the spec: `_looks_like_unified_diff` of the absent module
`hybrid_agent/loop.py` (spec section 4.1) is true when the text contains
unified-diff markers (lines beginning "--- ", "+++ ", and a hunk header "@@")
or context-diff markers (the "*** "/"--- "/"+++ " triad together with a
"****" or "----" hunk separator line). -/
def looksLikeUnifiedDiff (ls : Text) : Bool :=
  (ls.any unifiedOldMarker && ls.any unifiedNewMarker && ls.any hunkMarker) ||
    (ls.any contextStarMarker && ls.any unifiedOldMarker && ls.any unifiedNewMarker &&
      (ls.any contextStarRuler || ls.any contextDashRuler))

theorem fencedOnce_length {ls : Text} (h : fencedOnce ls = true) : 2 ≤ ls.length := by
  match ls with
  | [] => simp [fencedOnce] at h
  | [_] => simp [fencedOnce] at h
  | _ :: _ :: _ => simp [List.length_cons]

theorem stripFencesAux_of_not_fenced {ls : Text} (n : Nat) (h : fencedOnce ls = false) :
    stripFencesAux n ls = ls := by
  cases n with
  | zero => rfl
  | succ n => simp [stripFencesAux, h]

theorem stripFencesAux_fixpoint : ∀ (n : Nat) (ls : Text), ls.length ≤ n →
    fencedOnce (stripFencesAux n ls) = false := by
  intro n
  induction n with
  | zero =>
    intro ls hle
    have : ls = [] := List.eq_nil_of_length_eq_zero (Nat.le_zero.mp hle)
    subst this
    rfl
  | succ n ih =>
    intro ls hle
    by_cases h : fencedOnce ls = true
    · have h2 := fencedOnce_length h
      have hlen : (ls.tail.dropLast).length ≤ n := by
        simp [List.length_dropLast, List.length_tail]
        omega
      simp [stripFencesAux, h]
      exact ih _ hlen
    · rw [Bool.not_eq_true] at h
      rw [stripFencesAux_of_not_fenced _ h]
      exact h

theorem fencedOnce_stripCodeFences (ls : Text) :
    fencedOnce (stripCodeFences ls) = false :=
  stripFencesAux_fixpoint ls.length ls (Nat.le_refl _)

/-- C3: applying `_strip_code_fences` twice yields the same result as applying
it once, for every text input. -/
theorem strip_code_fences_idempotent (ls : Text) :
    stripCodeFences (stripCodeFences ls) = stripCodeFences ls := by
  have h := fencedOnce_stripCodeFences ls
  unfold stripCodeFences
  exact stripFencesAux_of_not_fenced _ h

theorem fencedOnce_shape {ls : Text} (h : fencedOnce ls = true) :
    ∃ l₁ mid lastLine, ls = l₁ :: (mid ++ [lastLine]) ∧ isFenceLine l₁ = true ∧
      isFenceLine lastLine = true ∧ ls.tail.dropLast = mid := by
  match ls with
  | [] => simp [fencedOnce] at h
  | [_] => simp [fencedOnce] at h
  | l₁ :: l₂ :: rest =>
    simp only [fencedOnce, Bool.and_eq_true] at h
    have hne : (l₂ :: rest) ≠ [] := by simp
    refine ⟨l₁, (l₂ :: rest).dropLast, (l₂ :: rest).getLast hne, ?_, h.1, ?_, rfl⟩
    · rw [List.dropLast_append_getLast hne]
    · have h2 := h.2
      rwa [List.getLastD_eq_getLast?, List.getLast?_eq_getLast _ hne, Option.getD_some] at h2

theorem any_stripFencesAux (p : Line → Bool) (hp : ∀ l, isFenceLine l = true → p l = false) :
    ∀ (n : Nat) (ls : Text), (stripFencesAux n ls).any p = ls.any p := by
  intro n
  induction n with
  | zero => intro ls; rfl
  | succ n ih =>
    intro ls
    by_cases h : fencedOnce ls = true
    · obtain ⟨l₁, mid, lastLine, hshape, hf1, hf2, hmid⟩ := fencedOnce_shape h
      simp only [stripFencesAux, h, if_true]
      rw [ih, hmid, hshape]
      simp [List.any_append, hp _ hf1, hp _ hf2]
    · rw [Bool.not_eq_true] at h
      rw [stripFencesAux_of_not_fenced _ h]

theorem any_stripCodeFences (p : Line → Bool) (hp : ∀ l, isFenceLine l = true → p l = false)
    (ls : Text) : (stripCodeFences ls).any p = ls.any p :=
  any_stripFencesAux p hp ls.length ls

theorem pyStartswith_head_ne {l : Line} {c₁ c₂ : Char} {p₁ p₂ : Line} (hc : c₁ ≠ c₂)
    (h : pyStartswith l (c₁ :: p₁) = true) : pyStartswith l (c₂ :: p₂) = false := by
  cases l with
  | nil => simp [pyStartswith, List.isPrefixOf] at h
  | cons x xs =>
    simp only [pyStartswith, List.isPrefixOf, Bool.and_eq_true, beq_iff_eq] at h
    obtain ⟨rfl, -⟩ := h
    simp only [pyStartswith, List.isPrefixOf, Bool.and_eq_false_iff]
    left
    simpa using Ne.symm hc

theorem unifiedOldMarker_not_fence {l : Line} (h : isFenceLine l = true) :
    unifiedOldMarker l = false :=
  pyStartswith_head_ne (by decide) h

theorem unifiedNewMarker_not_fence {l : Line} (h : isFenceLine l = true) :
    unifiedNewMarker l = false :=
  pyStartswith_head_ne (by decide) h

theorem hunkMarker_not_fence {l : Line} (h : isFenceLine l = true) :
    hunkMarker l = false :=
  pyStartswith_head_ne (by decide) h

theorem contextStarMarker_not_fence {l : Line} (h : isFenceLine l = true) :
    contextStarMarker l = false :=
  pyStartswith_head_ne (by decide) h

theorem contextStarRuler_not_fence {l : Line} (h : isFenceLine l = true) :
    contextStarRuler l = false := by
  unfold contextStarRuler
  rw [pyStartswith_head_ne (by decide) h]
  rfl

theorem contextDashRuler_not_fence {l : Line} (h : isFenceLine l = true) :
    contextDashRuler l = false := by
  unfold contextDashRuler
  rw [pyStartswith_head_ne (by decide) h]
  rfl

/-- C4: diff-shape classification is invariant under fence stripping, for
every text input. -/
theorem looks_like_unified_diff_fence_invariant (ls : Text) :
    looksLikeUnifiedDiff ls = looksLikeUnifiedDiff (stripCodeFences ls) := by
  unfold looksLikeUnifiedDiff
  rw [any_stripCodeFences _ (fun _ h => unifiedOldMarker_not_fence h),
    any_stripCodeFences _ (fun _ h => unifiedNewMarker_not_fence h),
    any_stripCodeFences _ (fun _ h => hunkMarker_not_fence h),
    any_stripCodeFences _ (fun _ h => contextStarMarker_not_fence h),
    any_stripCodeFences _ (fun _ h => contextStarRuler_not_fence h),
    any_stripCodeFences _ (fun _ h => contextDashRuler_not_fence h)]

/-- Python truthiness guard `if field: hasher.update(field)`: a falsy field
(None or the empty string) contributes no bytes. -/
def optBytes : Option (List Char) → List Char
  | none => []
  | some s => s

/-- Translated from `_compute_cache_key` (cli.py lines 575-593): the exact
byte sequence fed, in order, to the SHA-256 hasher - prompt, preamble when
truthy, the context file list joined with newlines, stdin text when truthy,
then the stdin label, the Ollama model, the Codex model list, and the maximal
attempt count.  SHA-256 itself is modelled by this message: the digest is a
deterministic function of the message, and the spec treats distinct messages
as yielding distinct digests with overwhelming probability, so fingerprint
equality is settled by message equality. -/
def cacheKeyMessage (prompt : List Char) (preamble : Option (List Char))
    (files : List (List Char)) (stdinText : Option (List Char))
    (stdinLabel ollamaModel codexModels : List Char) (maxOllamaAttempts : Nat) :
    List Char :=
  prompt ++ optBytes preamble ++ List.intercalate ['\n'] files ++ optBytes stdinText ++
    stdinLabel ++ ollamaModel ++ codexModels ++ (toString maxOllamaAttempts).toList

/-- C1 counterexample: two requests that differ in exactly one field - the
context file list is ["a", "b"] in one and the single file "a\nb" in the
other - feed identical byte sequences to the hasher, because the file list is
joined with newlines before hashing, and therefore share the fingerprint. -/
theorem cache_key_collision_distinct_files :
    cacheKeyMessage "p".toList none [['a'], ['b']] none "stdin.txt".toList
        "m".toList "c".toList 5 =
      cacheKeyMessage "p".toList none [['a', '\n', 'b']] none "stdin.txt".toList
        "m".toList "c".toList 5 ∧
      ([['a'], ['b']] : List (List Char)) ≠ [['a', '\n', 'b']] := by
  refine ⟨by decide, by decide⟩

/-- C1 amended: identical inputs always yield identical fingerprints, and
changing the prompt alone (all other fields fixed) always changes the byte
sequence fed to the hasher, hence the fingerprint; but requests differing in
exactly one of the other fields can share a fingerprint, because fields are
concatenated without separators (file lists ["a", "b"] and ["a\nb"] collide,
as do stdin text None and the empty string). -/
theorem cache_key_prompt_injective (p₁ p₂ : List Char) (preamble : Option (List Char))
    (files : List (List Char)) (stdinText : Option (List Char))
    (stdinLabel ollamaModel codexModels : List Char) (n : Nat) (h : p₁ ≠ p₂) :
    cacheKeyMessage p₁ preamble files stdinText stdinLabel ollamaModel codexModels n ≠
      cacheKeyMessage p₂ preamble files stdinText stdinLabel ollamaModel codexModels n := by
  intro heq
  unfold cacheKeyMessage at heq
  simp only [List.append_assoc] at heq
  exact h (List.append_cancel_right heq)

theorem cache_key_prompt_injective_witness :
    ("p1".toList ≠ "p2".toList) ∧
      cacheKeyMessage "p1".toList none [] none "s".toList "m".toList "c".toList 5 ≠
        cacheKeyMessage "p2".toList none [] none "s".toList "m".toList "c".toList 5 :=
  ⟨by decide,
    cache_key_prompt_injective "p1".toList "p2".toList none [] none "s".toList
      "m".toList "c".toList 5 (by decide)⟩

/-- Python `s.split(c)` for a one-character separator; the empty string
splits to a single empty piece. -/
def splitChar (c : Char) : List Char → List (List Char)
  | [] => [[]]
  | x :: xs =>
    match splitChar c xs with
    | [] => [[]]
    | h :: t => if x = c then [] :: h :: t else (x :: h) :: t

/-- Python `str.strip()`: remove leading and trailing whitespace.  (Lean's
`Char.isWhitespace` stands in for Python's whitespace class.) -/
def pyStrip (s : List Char) : List Char :=
  ((s.dropWhile Char.isWhitespace).reverse.dropWhile Char.isWhitespace).reverse

/-- Python `int(s)` on plain decimal forms: optional surrounding whitespace,
an optional sign, then one or more ASCII digits; `none` models a raised
ValueError.  (Underscore digit grouping and non-ASCII digits accepted by
CPython are not modelled; no claim depends on them.) -/
def pyInt (s : List Char) : Option Int :=
  let t := pyStrip s
  let signDigits : Int × List Char :=
    match t with
    | '+' :: rest => (1, rest)
    | '-' :: rest => (-1, rest)
    | _ => (1, t)
  if !signDigits.2.isEmpty && signDigits.2.all Char.isDigit then
    some (signDigits.1 *
      (signDigits.2.foldl (fun acc c => 10 * acc + (c.toNat - '0'.toNat)) 0 : Nat))
  else none

/-- Python `token.rsplit("|", 1)` when "|" occurs in the token, and the
default pair `(token, "1")` otherwise: the split happens at the LAST pipe. -/
def splitLastPipe (token : List Char) : List Char × List Char :=
  match splitChar '|' token with
  | [] => (token, ['1'])
  | [_] => (token, ['1'])
  | s :: ss => (List.intercalate ['|'] ((s :: ss).dropLast), (s :: ss).getLastD [])

/-- The repetition count of one weighted token: Python's
`count = max(1, int(weight))` under a `try`, with `count = 1` on ValueError. -/
def weightCount (weight : List Char) : Int :=
  match pyInt weight with
  | some i => max 1 i
  | none => 1

/-- Translated from `_expand_weighted_models` (cli.py lines 147-169), string
input form.  (The list-input and non-string fallback branches of the Python
function are not modelled; the claim concerns the documented weighted string
form.)  A falsy specification yields the empty string; tokens are comma-split
and stripped with empty tokens dropped; each token is split on its last pipe
into model and weight (weight "1" when no pipe occurs); the model is stripped
again; the model name is repeated `weightCount` times into the accumulated
entry list; the entries are joined with commas. -/
def expandWeightedModels (spec : List Char) : List Char :=
  if spec.isEmpty then [] else
  let tokens := ((splitChar ',' spec).map pyStrip).filter (fun t => !t.isEmpty)
  let entries := tokens.foldl (fun acc token =>
    acc ++ List.replicate (weightCount (splitLastPipe token).2).toNat
      (pyStrip (splitLastPipe token).1)) []
  if entries.isEmpty then [] else List.intercalate [','] entries

/-- The expansion the claim literally prescribes: each token's model name is
repeated exactly its given weight number of times (default weight 1). -/
def expandWeightedModelsClaim (spec : List Char) : List Char :=
  if spec.isEmpty then [] else
  List.intercalate [','] ((((splitChar ',' spec).map pyStrip).filter
      (fun t => !t.isEmpty)).flatMap (fun token =>
    List.replicate ((pyInt (splitLastPipe token).2).getD 1).toNat
      (pyStrip (splitLastPipe token).1)))

/-- The expansion as corrected: like the claim, except that the repetition
count is clamped below at one - `max 1 weight` - and an unparsable weight
counts as one. -/
def expandWeightedModelsAmended (spec : List Char) : List Char :=
  if spec.isEmpty then [] else
  List.intercalate [','] ((((splitChar ',' spec).map pyStrip).filter
      (fun t => !t.isEmpty)).flatMap (fun token =>
    List.replicate (max 1 ((pyInt (splitLastPipe token).2).getD 1)).toNat
      (pyStrip (splitLastPipe token).1)))

/-- C5 counterexample: for the weighted specification "m|0" the code repeats
the model `max(1, 0) = 1` time and returns "m", while the claim's "repeated
exactly its given weight times" demands zero repetitions and an empty
expansion. -/
theorem expand_weighted_models_zero_weight :
    expandWeightedModels ("m|0".toList) = "m".toList ∧
      expandWeightedModelsClaim ("m|0".toList) = [] := by
  refine ⟨by decide, by decide⟩

theorem foldl_append_replicate {α β : Type} (f : α → List β) :
    ∀ (l : List α) (acc : List β),
      l.foldl (fun acc t => acc ++ f t) acc = acc ++ l.flatMap f := by
  intro l
  induction l with
  | nil => intro acc; simp
  | cons x xs ih => intro acc; simp [List.foldl_cons, ih, List.flatMap_cons]

/-- The pointwise bridge between the implementation count and the amended
wording. -/
theorem weightCount_eq (w : List Char) :
    weightCount w = max 1 ((pyInt w).getD 1) := by
  unfold weightCount
  cases pyInt w <;> simp

theorem intercalate_empty_guard (sep : List Char) (e : List (List Char)) :
    (if e.isEmpty then [] else List.intercalate sep e) = List.intercalate sep e := by
  cases e <;> simp [List.intercalate]

/-- C5 amended: `_expand_weighted_models` splits on commas, splits each token
on the last pipe into (model, weight) with default weight 1, and repeats each
token's model name `max 1 weight` times (an unparsable weight counting as 1)
in the output sequence. -/
theorem expand_weighted_models_correct (spec : List Char) :
    expandWeightedModels spec = expandWeightedModelsAmended spec := by
  unfold expandWeightedModels expandWeightedModelsAmended
  by_cases hs : spec.isEmpty
  · simp [hs]
  · simp only [hs, Bool.false_eq_true, if_false]
    rw [foldl_append_replicate]
    simp only [List.nil_append, weightCount_eq]
    exact intercalate_empty_guard _ _

/-- The observable outcome of the single HTTP POST inside
`ollama_generate_diff`: either the extracted "response" field of the decoded
JSON body (absent field modelled as `none`, Python `j.get("response")`), or
any exception raised along the way (connection error, timeout, disallowed
scheme), carried with its message. -/
inductive OllamaOutcome : Type
  | ok (responseField : Option (List Char))
  | exc (msg : List Char)

/-- Translated from `ollama_generate_diff` (ollama_client.py lines 28-64),
with the HTTP/JSON plumbing abstracted into an `OllamaOutcome`: the response
text is `(j.get("response") or "").strip()`; empty text fails with an empty
message body, nonempty text succeeds; every exception is converted into a
`(False, "", message)` triple instead of propagating. -/
def ollamaGenerateDiff : OllamaOutcome → Bool × List Char × List Char
  | .ok r =>
    if (pyStrip (r.getD [])).isEmpty then
      (false, [], "[ERR] Empty response from Ollama".toList)
    else
      (true, pyStrip (r.getD []), "[OK]".toList)
  | .exc m => (false, [], "[ERR] Ollama error: ".toList ++ m)

/-- The observable outcome of the `codex-local` subprocess inside
`codex_generate_diff`: captured stdout on a zero exit, or one of the handled
exceptions - CalledProcessError with exit code and output, FileNotFoundError
for a missing executable, and any other exception (TimeoutExpired included)
with its message. -/
inductive CodexOutcome : Type
  | ok (stdout : List Char)
  | exitError (returncode : Int) (output : List Char)
  | notFound
  | otherExc (msg : List Char)

/-- Translated from `codex_generate_diff` (codex_client.py lines 5-29), with
the subprocess invocation abstracted into a `CodexOutcome`: stdout is
stripped; empty text fails; each handled exception becomes a
`(False, "", message)` triple instead of propagating. -/
def codexGenerateDiff : CodexOutcome → Bool × List Char × List Char
  | .ok out =>
    if (pyStrip out).isEmpty then
      (false, [], "[ERR] Empty response from CodexCLI".toList)
    else
      (true, pyStrip out, "[OK]".toList)
  | .exitError rc output =>
    (false, [], "[ERR] CodexCLI failed (exit ".toList ++ (toString rc).toList ++
      "): ".toList ++ pyStrip output)
  | .notFound => (false, [], "[ERR] codex-local not found on PATH".toList)
  | .otherExc m => (false, [], "[ERR] Unexpected CodexCLI error: ".toList ++ m)

theorem pyStrip_of_all_whitespace {s : List Char} (h : ∀ c ∈ s, c.isWhitespace) :
    pyStrip s = [] := by
  unfold pyStrip
  have h1 : s.dropWhile Char.isWhitespace = [] := List.dropWhile_eq_nil_iff.mpr h
  rw [h1]
  rfl

/-- C7: both backend clients fail closed - they always return a
(success, text, message) triple (totality of the two Lean functions models
"never raises"), an empty or whitespace-only response text yields
success = False, and every process or network error (nonzero exit, missing
executable, timeout or other exception) yields success = False. -/
theorem backend_clients_fail_closed :
    (∀ r : Option (List Char), (∀ c ∈ r.getD [], c.isWhitespace) →
        (ollamaGenerateDiff (.ok r)).1 = false) ∧
      (∀ m, (ollamaGenerateDiff (.exc m)).1 = false) ∧
      (∀ s : List Char, (∀ c ∈ s, c.isWhitespace) →
        (codexGenerateDiff (.ok s)).1 = false) ∧
      (∀ rc output, (codexGenerateDiff (.exitError rc output)).1 = false) ∧
      (codexGenerateDiff .notFound).1 = false ∧
      (∀ m, (codexGenerateDiff (.otherExc m)).1 = false) := by
  refine ⟨?_, fun m => rfl, ?_, fun rc output => rfl, rfl, fun m => rfl⟩
  · intro r h
    simp [ollamaGenerateDiff, pyStrip_of_all_whitespace h]
  · intro s h
    simp [codexGenerateDiff, pyStrip_of_all_whitespace h]

theorem backend_clients_fail_closed_witness :
    (∀ c ∈ (some [' ', '\n'] : Option (List Char)).getD [], c.isWhitespace) ∧
      (ollamaGenerateDiff (.ok (some [' ', '\n']))).1 = false ∧
      (codexGenerateDiff (.ok [' ', '\t'])).1 = false :=
  ⟨by decide, backend_clients_fail_closed.1 (some [' ', '\n']) (by decide),
    backend_clients_fail_closed.2.2.1 [' ', '\t'] (by decide)⟩

/-- A Python float as the backoff code observes it: a finite rational, one of
the two infinities, or NaN.  (Rounding of decimal literals is immaterial to
the claims; the ordering behaviour, which is what `max` consults, is exact.) -/
inductive PyF : Type
  | num (q : ℚ)
  | posInf
  | negInf
  | nan

/-- Python's `<` on floats: every comparison against NaN is false. -/
def pyLt : PyF → PyF → Bool
  | .nan, _ => false
  | _, .nan => false
  | .num a, .num b => decide (a < b)
  | .num _, .posInf => true
  | .num _, .negInf => false
  | .posInf, .num _ => false
  | .negInf, .num _ => true
  | .posInf, .posInf => false
  | .negInf, .negInf => false
  | .negInf, .posInf => true
  | .posInf, .negInf => false

/-- CPython `max(a, b)`: returns `b` when `a < b` and `a` otherwise (so a NaN
second argument loses against the first). -/
def pymax (a b : PyF) : PyF := if pyLt a b then b else a

/-- Python's `>=` on floats: false whenever either side is NaN, otherwise the
negation of `<`. -/
def pyGe (a b : PyF) : Bool :=
  match a, b with
  | .nan, _ => false
  | _, .nan => false
  | x, y => !pyLt x y

/-- One three-level value source of `_build_effective_args`'s `pick` helper:
the command-line option (absent when None), the session entry (absent when
the key is missing), and the config entry.  The inner layer is the outcome of
`float(value)`: `none` models a raised TypeError/ValueError. -/
structure PickSrc : Type where
  arg : Option (Option PyF)
  sess : Option (Option PyF)
  cfg : Option (Option PyF)

/-- Translated from `pick_float` inside `_build_effective_args` (cli.py lines
604-616): take the first present source in option/session/config order, then
`float(value)` with the default on a conversion failure, and the default when
no source is present. -/
def pickFloat (s : PickSrc) (d : PyF) : PyF :=
  match s.arg <|> s.sess <|> s.cfg with
  | none => d
  | some conv => conv.getD d

/-- The six effective backoff parameters. -/
structure EffectiveBackoff : Type where
  ollamaBackoffInitial : PyF
  ollamaBackoffMultiplier : PyF
  ollamaBackoffMax : PyF
  codexBackoffInitial : PyF
  codexBackoffMultiplier : PyF
  codexBackoffMax : PyF

/-- Translated from `_build_effective_args` (cli.py lines 647-700): each
delay is clamped with `max(0.0, ...)`, each multiplier with `max(1.0, ...)`,
around defaults 0.25/2.0/5.0 (Ollama) and 0.5/2.0/5.0 (Codex). -/
def buildEffectiveBackoff (oi om ox ci cm cx : PickSrc) : EffectiveBackoff where
  ollamaBackoffInitial := pymax (.num 0) (pickFloat oi (.num (1 / 4)))
  ollamaBackoffMultiplier := pymax (.num 1) (pickFloat om (.num 2))
  ollamaBackoffMax := pymax (.num 0) (pickFloat ox (.num 5))
  codexBackoffInitial := pymax (.num 0) (pickFloat ci (.num (1 / 2)))
  codexBackoffMultiplier := pymax (.num 1) (pickFloat cm (.num 2))
  codexBackoffMax := pymax (.num 0) (pickFloat cx (.num 5))

theorem pymax_ge_num (c : ℚ) (v : PyF) : pyGe (pymax (PyF.num c) v) (PyF.num c) = true := by
  cases v with
  | num q =>
    by_cases h : c < q
    · simp [pymax, pyLt, pyGe, h, asymm h]
    · simp [pymax, pyLt, pyGe, h]
  | posInf => rfl
  | negInf => simp [pymax, pyLt, pyGe]
  | nan => simp [pymax, pyLt, pyGe]

/-- C8: for every combination of command-line, session, and config values -
present, missing, malformed (conversion failure), negative, infinite, or NaN -
the effective backoff parameters satisfy the BackoffPolicy constraints:
initial delay at least 0, multiplier at least 1, cap at least 0, for both
backends. -/
theorem effective_backoff_invariants (oi om ox ci cm cx : PickSrc) :
    pyGe (buildEffectiveBackoff oi om ox ci cm cx).ollamaBackoffInitial (.num 0) = true ∧
      pyGe (buildEffectiveBackoff oi om ox ci cm cx).ollamaBackoffMultiplier (.num 1) = true ∧
      pyGe (buildEffectiveBackoff oi om ox ci cm cx).ollamaBackoffMax (.num 0) = true ∧
      pyGe (buildEffectiveBackoff oi om ox ci cm cx).codexBackoffInitial (.num 0) = true ∧
      pyGe (buildEffectiveBackoff oi om ox ci cm cx).codexBackoffMultiplier (.num 1) = true ∧
      pyGe (buildEffectiveBackoff oi om ox ci cm cx).codexBackoffMax (.num 0) = true :=
  ⟨pymax_ge_num 0 _, pymax_ge_num 1 _, pymax_ge_num 0 _,
    pymax_ge_num 0 _, pymax_ge_num 1 _, pymax_ge_num 0 _⟩

/-- Python `list(dict.fromkeys(l))`: keep the first occurrence of each
element, in order. -/
def pyDedup {α : Type} [DecidableEq α] : List α → List α
  | [] => []
  | x :: xs => x :: pyDedup (xs.filter (· ≠ x))
  termination_by l => l.length
  decreasing_by
    simp only [List.length_cons]
    exact Nat.lt_succ_of_le (List.length_filter_le _ xs)

theorem mem_pyDedup {α : Type} [DecidableEq α] (l : List α) (a : α) :
    a ∈ pyDedup l ↔ a ∈ l := by
  induction l using pyDedup.induct with
  | case1 => simp [pyDedup]
  | case2 x xs ih =>
    rw [pyDedup]
    simp only [List.mem_cons, ih, List.mem_filter, decide_eq_true_eq]
    constructor
    · rintro (rfl | ⟨hmem, -⟩)
      · exact Or.inl rfl
      · exact Or.inr hmem
    · rintro (rfl | hmem)
      · exact Or.inl rfl
      · by_cases hax : a = x
        · exact Or.inl hax
        · exact Or.inr ⟨hmem, hax⟩

theorem pyDedup_nodup {α : Type} [DecidableEq α] (l : List α) : (pyDedup l).Nodup := by
  induction l using pyDedup.induct with
  | case1 => simp [pyDedup]
  | case2 x xs ih =>
    rw [pyDedup]
    refine List.nodup_cons.2 ⟨?_, ih⟩
    rw [mem_pyDedup]
    simp

theorem pyDedup_filter {α : Type} [DecidableEq α] (p : α → Bool) (l : List α) :
    (pyDedup l).filter p = pyDedup (l.filter p) := by
  induction l using pyDedup.induct with
  | case1 => simp [pyDedup]
  | case2 x xs ih =>
    rw [pyDedup]
    by_cases hp : p x = true
    · rw [List.filter_cons_of_pos hp, ih, List.filter_cons_of_pos hp, pyDedup,
        List.filter_filter, List.filter_filter]
      have hcomm : List.filter (fun a => p a && decide (a ≠ x)) xs =
          List.filter (fun a => decide (a ≠ x) && p a) xs :=
        List.filter_congr (fun a _ => Bool.and_comm _ _)
      rw [hcomm]
    · rw [List.filter_cons_of_neg hp, ih,
        List.filter_cons_of_neg hp, List.filter_filter]
      have hdrop : List.filter (fun a => p a && decide (a ≠ x)) xs =
          List.filter p xs := by
        apply List.filter_congr
        intro a _
        by_cases hax : a = x <;> simp [hax, hp]
      rw [hdrop]

theorem pyDedup_append_left {α : Type} [DecidableEq α] (a : List α) :
    ∀ b, pyDedup (pyDedup a ++ b) = pyDedup (a ++ b) := by
  induction a using pyDedup.induct with
  | case1 => intro b; simp [pyDedup]
  | case2 x xs ih =>
    intro b
    rw [pyDedup, List.cons_append, pyDedup, List.cons_append, pyDedup]
    congr 1
    rw [List.filter_append, List.filter_append, pyDedup_filter, List.filter_filter]
    have hmerge : List.filter (fun a => decide (a ≠ x) && decide (a ≠ x)) xs =
        xs.filter (· ≠ x) :=
      List.filter_congr (fun a _ => Bool.and_self _)
    rw [hmerge, ih]

theorem pyDedup_idem {α : Type} [DecidableEq α] (a : List α) :
    pyDedup (pyDedup a) = pyDedup a := by
  have h := pyDedup_append_left a []
  simpa using h

theorem pyDedup_append_filter_out {α : Type} [DecidableEq α] :
    ∀ (n : Nat) (a b : List α), a.length ≤ n →
      pyDedup (a ++ b.filter (fun f => f ∉ a)) = pyDedup (a ++ b) := by
  intro n
  induction n with
  | zero =>
    intro a b hle
    have ha : a = [] := List.eq_nil_of_length_eq_zero (Nat.le_zero.mp hle)
    subst ha
    simp
  | succ n ih =>
    intro a b hle
    match a with
    | [] => simp
    | x :: a' =>
      rw [List.cons_append, List.cons_append, pyDedup, pyDedup]
      congr 1
      rw [List.filter_append, List.filter_append, List.filter_filter]
      have hpred : List.filter (fun f => decide (f ≠ x) && decide (f ∉ (x :: a'))) b =
          (b.filter (· ≠ x)).filter (fun f => decide (f ∉ a'.filter (· ≠ x))) := by
        rw [List.filter_filter]
        apply List.filter_congr
        intro f _
        by_cases hfx : f = x
        · simp [hfx]
        · simp [hfx, List.mem_filter]
      rw [hpred]
      have hlen : (a'.filter (· ≠ x)).length ≤ n := by
        have hf := List.length_filter_le (fun f => decide (f ≠ x)) a'
        simp only [List.length_cons] at hle
        omega
      exact ih (a'.filter (· ≠ x)) (b.filter (· ≠ x)) hlen

/-- Translated from `cmd_solve` (cli.py lines 865-877): the context file list
starts from the --file arguments (or the saved session's files), is
deduplicated, extended with the context-glob expansion and deduplicated
again, then extended with those inferred related files not already present,
and deduplicated one final time.  Deduplication is `list(dict.fromkeys(...))`
throughout. -/
def buildContextFiles {α : Type} [DecidableEq α] (initial globs related : List α)
    (inferRelated : Bool) : List α :=
  let cf1 := pyDedup initial
  let cf2 := pyDedup (cf1 ++ globs)
  let cf3 := if inferRelated then cf2 ++ related.filter (fun f => f ∉ cf2) else cf2
  pyDedup cf3

/-- C9: the context file list handed to resolution contains no duplicate
entries and preserves the order of each path's first occurrence: it equals
the order-preserving first-occurrence deduplication of the concatenated
sources (initial files, then glob matches, then inferred related files when
inference is on). -/
theorem context_files_dedup_first_occurrence {α : Type} [DecidableEq α]
    (initial globs related : List α) (inferRelated : Bool) :
    (buildContextFiles initial globs related inferRelated).Nodup ∧
      buildContextFiles initial globs related inferRelated =
        pyDedup (initial ++ globs ++ (if inferRelated then related else [])) := by
  refine ⟨pyDedup_nodup _, ?_⟩
  unfold buildContextFiles
  cases inferRelated with
  | false =>
    simp only [if_neg Bool.false_ne_true, List.append_nil]
    rw [pyDedup_idem, pyDedup_append_left]
  | true =>
    simp only [if_pos trivial]
    have h1 := pyDedup_append_filter_out (pyDedup (pyDedup initial ++ globs)).length
      (pyDedup (pyDedup initial ++ globs)) related (Nat.le_refl _)
    refine Eq.trans h1 ?_
    rw [pyDedup_append_left (pyDedup initial ++ globs) related]
    rw [List.append_assoc, pyDedup_append_left initial (globs ++ related),
      ← List.append_assoc]

/-- One recorded attempt: backend identifier, sequence index, success flag.
(Raw output and elapsed time carry no information the claims consult.) -/
structure Attempt : Type where
  backend : String
  index : Nat
  ok : Bool
deriving DecidableEq

/-- The result record of one resolution. -/
structure ResolutionResult : Type where
  returncode : Nat
  message : Text
  source : String
  diffText : Text
deriving DecidableEq

/-- The exit code and captured streams of one validator process run. -/
structure ValidatorRun : Type where
  exitCode : Nat
  stdout : Text
  stderr : Text
deriving DecidableEq

/-- A captured stream counts as empty when it has no non-whitespace
character. -/
def isBlankText (t : Text) : Bool := t.all (fun l => l.all Char.isWhitespace)

/-- The validation verdict: the (possibly rewritten) accepted diff, or a
rejection diagnostic. -/
inductive VOutcome : Type
  | accepted (d : Text)
  | rejected (diag : Text)
deriving DecidableEq

/-- Modelled from the spec: the validation adapter of the absent module
`hybrid_agent/loop.py` (spec section 4.3).  No configured validator accepts
every diff unchanged; exit 0 with empty stdout accepts unchanged; exit 0
with nonempty stdout accepts the stdout as the rewritten diff; a nonzero
exit rejects, with the captured stderr (or the stdout when stderr is empty)
as the diagnostic. -/
def runValidator : Option (Text → ValidatorRun) → Text → VOutcome
  | none, d => .accepted d
  | some f, d =>
    if (f d).exitCode = 0 then
      if isBlankText (f d).stdout then .accepted d else .accepted (f d).stdout
    else
      .rejected (if isBlankText (f d).stderr then (f d).stdout else (f d).stderr)

/-- Modelled from the spec: the fast-backend attempt loop (spec section 4.5):
up to the configured number of oracle calls, each response fence-stripped and
shape-checked; the first shape-valid diff stops the loop with a successful
attempt record; every other call appends a failed attempt record.  The
oracle argument stands for `ollama_generate_diff`, giving the success flag
and response text of the i-th call. -/
def runFastLoop (oracle : Nat → Bool × Text) : Nat → Nat → List Attempt × Option Text
  | 0, _ => ([], none)
  | n + 1, idx =>
    if (oracle idx).1 && looksLikeUnifiedDiff (stripCodeFences (oracle idx).2) then
      ([⟨"ollama", idx, true⟩], some (stripCodeFences (oracle idx).2))
    else
      (⟨"ollama", idx, false⟩ :: (runFastLoop oracle n (idx + 1)).1,
        (runFastLoop oracle n (idx + 1)).2)

/-- Modelled from the spec: the fallback attempt loop (spec section 4.5),
iterating the expanded fallback model sequence; same shape-check-then-stop
behaviour as the fast loop.  The oracle stands for `codex_generate_diff` on
the i-th expanded model. -/
def runFallbackLoop (oracle : Nat → Bool × Text) :
    List String → Nat → List Attempt × Option Text
  | [], _ => ([], none)
  | _ :: ms, idx =>
    if (oracle idx).1 && looksLikeUnifiedDiff (stripCodeFences (oracle idx).2) then
      ([⟨"codex-cli", idx, true⟩], some (stripCodeFences (oracle idx).2))
    else
      (⟨"codex-cli", idx, false⟩ :: (runFallbackLoop oracle ms (idx + 1)).1,
        (runFallbackLoop oracle ms (idx + 1)).2)

/-- The first shape-valid diff of the whole backend phase, fast loop first. -/
def backendCandidate (maxOllamaAttempts : Nat) (ollamaOracle : Nat → Bool × Text)
    (codexModels : List String) (codexOracle : Nat → Bool × Text) : Option Text :=
  match (runFastLoop ollamaOracle maxOllamaAttempts 0).2 with
  | some d => some d
  | none => (runFallbackLoop codexOracle codexModels 0).2

/-- The observable outcome of one `solve_request` call: the result record,
the recorded attempt list, and how many times each backend client was
invoked. -/
structure SolveOutcome : Type where
  result : ResolutionResult
  attempts : List Attempt
  ollamaCalls : Nat
  codexCalls : Nat
deriving DecidableEq

/-- The terminal step after a shape-valid diff was found: run the validation
adapter and produce the outcome. -/
def finishValidate (source : String) (attempts : List Attempt) (oCalls cCalls : Nat)
    (validator : Option (Text → ValidatorRun)) (d : Text) : SolveOutcome :=
  match runValidator validator d with
  | .accepted d2 =>
    ⟨⟨0, ["[OK] Diff accepted.".toList], source, d2⟩, attempts, oCalls, cCalls⟩
  | .rejected diag =>
    ⟨⟨3, diag, "validator", []⟩, attempts, oCalls, cCalls⟩

/-- Modelled from the spec: the cache-miss part of `solve_request` - fast
loop, then fallback loop, then validation of the first shape-valid diff, or
exhaustion with status 1 (spec sections 4.5 and 7). -/
def solveBackendPhase (maxOllamaAttempts : Nat) (ollamaOracle : Nat → Bool × Text)
    (codexModels : List String) (codexOracle : Nat → Bool × Text)
    (validator : Option (Text → ValidatorRun)) : SolveOutcome :=
  match (runFastLoop ollamaOracle maxOllamaAttempts 0).2 with
  | some d =>
    finishValidate "ollama" (runFastLoop ollamaOracle maxOllamaAttempts 0).1
      (runFastLoop ollamaOracle maxOllamaAttempts 0).1.length 0 validator d
  | none =>
    match (runFallbackLoop codexOracle codexModels 0).2 with
    | some d =>
      finishValidate "codex"
        ((runFastLoop ollamaOracle maxOllamaAttempts 0).1 ++
          (runFallbackLoop codexOracle codexModels 0).1)
        (runFastLoop ollamaOracle maxOllamaAttempts 0).1.length
        (runFallbackLoop codexOracle codexModels 0).1.length validator d
    | none =>
      ⟨⟨1, ["[ERR] No valid diff was produced.".toList],
          if codexModels.isEmpty then "ollama" else "codex", []⟩,
        (runFastLoop ollamaOracle maxOllamaAttempts 0).1 ++
          (runFallbackLoop codexOracle codexModels 0).1,
        (runFastLoop ollamaOracle maxOllamaAttempts 0).1.length,
        (runFallbackLoop codexOracle codexModels 0).1.length⟩

/-- The cache lookup: a stored diff only when a cache store and a key are
both supplied and the store holds an entry for the key. -/
def cacheLookup : Option (List (String × Text)) → Option String → Option Text
  | some store, some key => store.lookup key
  | _, _ => none

/-- Modelled from the spec: `solve_request` of the absent module
`hybrid_agent/loop.py` (spec sections 4.3-4.5, mirrored by
tests/test_loop.py).  Plan-only mode returns the assembled prompt as source
"plan" without touching backends or cache; otherwise a cache hit returns the
stored diff as source "cache" with no attempts and no backend calls; on a
cache miss the backend phase runs.  (The best-effort single-line coercion
and the persistence of cache/archive/log files on success are outside the
claims and are not modelled.) -/
def solveRequest (planOnly : Bool) (prompt : Text)
    (cacheStore : Option (List (String × Text))) (cacheKey : Option String)
    (maxOllamaAttempts : Nat) (ollamaOracle : Nat → Bool × Text)
    (codexModels : List String) (codexOracle : Nat → Bool × Text)
    (validator : Option (Text → ValidatorRun)) : SolveOutcome :=
  if planOnly then
    ⟨⟨0, ["[OK] Prompt ready (plan only).".toList], "plan", prompt⟩, [], 0, 0⟩
  else
    match cacheLookup cacheStore cacheKey with
    | some cached =>
      ⟨⟨0, ["[cached] Reusing stored response.".toList], "cache", cached⟩, [], 0, 0⟩
    | none =>
      solveBackendPhase maxOllamaAttempts ollamaOracle codexModels codexOracle validator

/-- C2: a pre-existing cache entry short-circuits resolution: status 0,
source "cache", the stored diff, no recorded attempts, and neither backend
client invoked. -/
theorem cache_hit_short_circuit (prompt : Text) (store : List (String × Text))
    (key : String) (d : Text) (maxOllamaAttempts : Nat)
    (ollamaOracle codexOracle : Nat → Bool × Text) (codexModels : List String)
    (validator : Option (Text → ValidatorRun))
    (hlookup : store.lookup key = some d) :
    (solveRequest false prompt (some store) (some key) maxOllamaAttempts ollamaOracle
        codexModels codexOracle validator).result.returncode = 0 ∧
      (solveRequest false prompt (some store) (some key) maxOllamaAttempts ollamaOracle
        codexModels codexOracle validator).result.source = "cache" ∧
      (solveRequest false prompt (some store) (some key) maxOllamaAttempts ollamaOracle
        codexModels codexOracle validator).result.diffText = d ∧
      (solveRequest false prompt (some store) (some key) maxOllamaAttempts ollamaOracle
        codexModels codexOracle validator).attempts = [] ∧
      (solveRequest false prompt (some store) (some key) maxOllamaAttempts ollamaOracle
        codexModels codexOracle validator).ollamaCalls = 0 ∧
      (solveRequest false prompt (some store) (some key) maxOllamaAttempts ollamaOracle
        codexModels codexOracle validator).codexCalls = 0 := by
  simp [solveRequest, cacheLookup, hlookup]

theorem cache_hit_short_circuit_witness :
    ([("k", [['d']])] : List (String × Text)).lookup "k" = some [['d']] ∧
      (solveRequest false [] (some [("k", [['d']])]) (some "k") 3
        (fun _ => (false, [])) ["codex"] (fun _ => (false, [])) none).result.source =
        "cache" :=
  ⟨by decide,
    (cache_hit_short_circuit [] [("k", [['d']])] "k" [['d']] 3 (fun _ => (false, []))
      (fun _ => (false, [])) ["codex"] none (by decide)).2.1⟩

/-- C6: when the backend phase finds a shape-valid candidate diff and the
configured validator process exits nonzero, resolution terminates with
status 3 and source "validator", and the result message carries the
validator's stderr (or its stdout when stderr is empty) as the rejection
diagnostic. -/
theorem validator_nonzero_exit_rejects (prompt : Text)
    (cacheStore : Option (List (String × Text))) (cacheKey : Option String)
    (maxOllamaAttempts : Nat) (ollamaOracle codexOracle : Nat → Bool × Text)
    (codexModels : List String) (f : Text → ValidatorRun) (d : Text)
    (hmiss : cacheLookup cacheStore cacheKey = none)
    (hcand : backendCandidate maxOllamaAttempts ollamaOracle codexModels codexOracle =
      some d)
    (hexit : (f d).exitCode ≠ 0) :
    (solveRequest false prompt cacheStore cacheKey maxOllamaAttempts ollamaOracle
        codexModels codexOracle (some f)).result.returncode = 3 ∧
      (solveRequest false prompt cacheStore cacheKey maxOllamaAttempts ollamaOracle
        codexModels codexOracle (some f)).result.source = "validator" ∧
      (solveRequest false prompt cacheStore cacheKey maxOllamaAttempts ollamaOracle
        codexModels codexOracle (some f)).result.message =
        (if isBlankText (f d).stderr then (f d).stdout else (f d).stderr) := by
  have hred : solveRequest false prompt cacheStore cacheKey maxOllamaAttempts
      ollamaOracle codexModels codexOracle (some f) =
      solveBackendPhase maxOllamaAttempts ollamaOracle codexModels codexOracle
        (some f) := by
    simp [solveRequest, hmiss]
  rw [hred]
  unfold backendCandidate at hcand
  unfold solveBackendPhase
  cases hfast : (runFastLoop ollamaOracle maxOllamaAttempts 0).2 with
  | some d0 =>
    rw [hfast] at hcand
    simp only [Option.some.injEq] at hcand
    subst hcand
    simp [finishValidate, runValidator, hexit]
  | none =>
    rw [hfast] at hcand
    dsimp only at hcand
    cases hfb : (runFallbackLoop codexOracle codexModels 0).2 with
    | some d1 =>
      rw [hfb] at hcand
      simp only [Option.some.injEq] at hcand
      subst hcand
      simp [finishValidate, runValidator, hexit]
    | none =>
      rw [hfb] at hcand
      exact absurd hcand (by simp)

/-- The fenced diff a backend might answer with, used as the concrete
response in witnesses. -/
def sampleDiffResponse : Text :=
  ["```diff".toList, "--- a/sample.py".toList, "+++ b/sample.py".toList,
    "@@ -0,0 +1 @@".toList, "+x = 1".toList, "```".toList]

/-- A validator process that exits 1 with "Diff rejected" on stderr. -/
def sampleValidator : Text → ValidatorRun := fun _ => ⟨1, [], ["Diff rejected".toList]⟩

theorem validator_nonzero_exit_rejects_witness :
    cacheLookup none none = none ∧
      backendCandidate 0 (fun _ => (false, [])) ["codex"]
          (fun _ => (true, sampleDiffResponse)) =
        some (stripCodeFences sampleDiffResponse) ∧
      (sampleValidator (stripCodeFences sampleDiffResponse)).exitCode ≠ 0 ∧
      (solveRequest false [] none none 0 (fun _ => (false, [])) ["codex"]
        (fun _ => (true, sampleDiffResponse))
        (some sampleValidator)).result.returncode = 3 ∧
      (solveRequest false [] none none 0 (fun _ => (false, [])) ["codex"]
        (fun _ => (true, sampleDiffResponse))
        (some sampleValidator)).result.source = "validator" :=
  ⟨rfl, by decide, by decide,
    (validator_nonzero_exit_rejects [] none none 0 (fun _ => (false, []))
      (fun _ => (true, sampleDiffResponse)) ["codex"] sampleValidator
      (stripCodeFences sampleDiffResponse) rfl (by decide) (by decide)).1,
    (validator_nonzero_exit_rejects [] none none 0 (fun _ => (false, []))
      (fun _ => (true, sampleDiffResponse)) ["codex"] sampleValidator
      (stripCodeFences sampleDiffResponse) rfl (by decide) (by decide)).2.1⟩

/-- What the prompt gate of `cmd_solve` lets through: the exit code, whether
`solve_request` was invoked, and whether the session file was written. -/
structure CmdSolveOutcome : Type where
  exitCode : Int
  solveInvoked : Bool
  sessionWritten : Bool
deriving DecidableEq

/-- Translated from `cmd_solve` (cli.py lines 849-863): the session is
consulted only under --repeat; the raw prompt is the --prompt argument when
given, else the saved session's prompt; a falsy raw prompt (absent or empty)
prints an error and returns exit code 2 before `solve_request` is invoked and
before the session file is written.  Everything past the prompt gate is
abstracted as `rest`, the outcome the continuation would produce. -/
def cmdSolvePromptGate (argsPrompt : Option (List Char)) (repeatFlag : Bool)
    (sessionPrompt : Option (List Char)) (rest : CmdSolveOutcome) : CmdSolveOutcome :=
  let rawPrompt :=
    match argsPrompt with
    | some p => some p
    | none => if repeatFlag then sessionPrompt else none
  match rawPrompt with
  | none => ⟨2, false, false⟩
  | some p => if p.isEmpty then ⟨2, false, false⟩ else rest

/-- C10: when no prompt is supplied on the command line and no saved session
provides one, `cmd_solve` returns exit code 2 without invoking
`solve_request` (hence contacting no backend) and without writing a session
file. -/
theorem no_prompt_exits_two (argsPrompt sessionPrompt : Option (List Char))
    (repeatFlag : Bool) (rest : CmdSolveOutcome)
    (hargs : argsPrompt = none)
    (hsess : repeatFlag = false ∨ sessionPrompt = none ∨ sessionPrompt = some []) :
    cmdSolvePromptGate argsPrompt repeatFlag sessionPrompt rest = ⟨2, false, false⟩ := by
  subst hargs
  rcases hsess with h | h | h
  · subst h
    simp [cmdSolvePromptGate]
  · subst h
    cases repeatFlag <;> simp [cmdSolvePromptGate]
  · subst h
    cases repeatFlag <;> simp [cmdSolvePromptGate]

theorem no_prompt_exits_two_witness :
    cmdSolvePromptGate none true none ⟨0, true, true⟩ = ⟨2, false, false⟩ :=
  no_prompt_exits_two none none true ⟨0, true, true⟩ rfl (Or.inr (Or.inl rfl))

/-- Sanity check mirroring test_strip_code_fences_handles_diff_language: the
fenced diff strips to its inner lines. -/
theorem sample_strip_fenced_diff :
    stripCodeFences sampleDiffResponse =
      ["--- a/sample.py".toList, "+++ b/sample.py".toList, "@@ -0,0 +1 @@".toList,
        "+x = 1".toList] := by
  decide

/-- Sanity check mirroring test_looks_like_unified_diff_accepts_context_style:
the context-style diff is classified as diff-shaped. -/
theorem sample_context_diff_accepted :
    looksLikeUnifiedDiff
      ["*** 1,3 ***".toList, "--- a/file.txt".toList, "+++ b/file.txt".toList,
        "*** 1 ****".toList, "-old line".toList, "--- 1 ----".toList,
        "+new line".toList] = true := by
  decide

/-- Sanity check of the documented weighted expansion example. -/
theorem sample_weighted_expansion :
    expandWeightedModels ("modelA|3,modelB|1".toList) =
      "modelA,modelA,modelA,modelB".toList := by
  decide
